import Mathlib

/-!
Verification of the glide gateway's routing and dispatch subsystem.

The definitions below are a shallow embedding of the Go sources:
  - `pkg/routers/routing/least_latency.go` (least-latency strategy),
  - the Cohere provider client (chat request building, dispatch, response
    normalization).

Machine time (`time.Time`) is embedded as `Nat` timestamps, `time.Duration`
as `Nat`, float64 latency values as `Rat`, and the `uint32` warm-up cursor
as a `Nat` reduced modulo 2^32 at each access.  Mutation of shared state is
embedded as explicit state passing: each operation returns the updated
state.  I/O effects (the HTTP call of the Cohere client) are embedded as an
explicit outcome datum handed to the function.
-/

/-- Modelled from the spec: the per-model latency tracker
(`pkg/routers/latency`, not among the given sources).  Spec section 3:
`warmed-up iff sample-count >= warmup-threshold`; `observe` folds a sample
into the EWMA (`avg := decay*avg + (1-decay)*x`, or `x` on the first
sample) and increments `sample-count`; `value()` reads the current average
(0 before the first sample). -/
structure MovingAverage where
  avg : Rat
  sampleCount : Nat
  warmupThreshold : Nat
  decay : Rat
  deriving DecidableEq, Inhabited

/-- Modelled from the spec: `warmed-up iff sample-count >= warmup-threshold`. -/
def MovingAverage.WarmedUp (m : MovingAverage) : Bool :=
  decide (m.warmupThreshold ≤ m.sampleCount)

/-- Modelled from the spec: `value()` returns the current EWMA. -/
def MovingAverage.Value (m : MovingAverage) : Rat := m.avg

/-- Modelled from the spec: `observe(latency)` folds a sample into the EWMA
and increments the sample count. -/
def MovingAverage.Observe (m : MovingAverage) (x : Rat) : MovingAverage :=
  if m.sampleCount = 0 then
    { m with avg := x, sampleCount := 1 }
  else
    { m with avg := m.decay * m.avg + (1 - m.decay) * x, sampleCount := m.sampleCount + 1 }

/-- The `providers.Model` handle as seen by the least-latency strategy:
identity, health flag, and the latency update interval
(`model.LatencyUpdateInterval()`). -/
structure Model where
  id : String
  healthy : Bool
  latencyUpdateInterval : Nat
  deriving DecidableEq, Inhabited

/-- `LatencyGetter` (least_latency.go line 18): where to find latency for
the specific model action. -/
abbrev LatencyGetter := Model → MovingAverage

/-- `ModelSchedule` (least_latency.go lines 21-25): latency update schedule
for a model.  The `sync.RWMutex` guards a single word; the embedding passes
the state explicitly. -/
structure ModelSchedule where
  model : Model
  expireAt : Nat
  deriving DecidableEq, Inhabited

/-- `ModelSchedule.ExpireAt` (least_latency.go lines 37-42). -/
def ModelSchedule.ExpireAt (s : ModelSchedule) : Nat := s.expireAt

/-- `ModelSchedule.Expired` (least_latency.go lines 44-49):
`time.Now().After(s.expireAt)`, i.e. strictly after. -/
def ModelSchedule.Expired (s : ModelSchedule) (now : Nat) : Bool :=
  decide (s.expireAt < now)

/-- `ModelSchedule.Update` (least_latency.go lines 52-57): expands the
expiration deadline to `now + model.LatencyUpdateInterval()`. -/
def ModelSchedule.Update (s : ModelSchedule) (now : Nat) : ModelSchedule :=
  { s with expireAt := now + s.model.latencyUpdateInterval }

/-- `NewSchedule` (least_latency.go lines 27-35): builds a schedule and
immediately calls `Update()`. -/
def NewSchedule (now : Nat) (model : Model) : ModelSchedule :=
  ModelSchedule.Update { model := model, expireAt := 0 } now

/-- `LeastLatencyRouting` (least_latency.go lines 64-68): the warm-up
cursor (`atomic.Uint32`) and one schedule per model. -/
structure LeastLatencyRouting where
  warmupIdx : Nat
  schedules : List ModelSchedule
  deriving DecidableEq, Inhabited

/-- `NewLeastLatencyRouting` (least_latency.go lines 70-81). -/
def NewLeastLatencyRouting (now : Nat) (models : List Model) : LeastLatencyRouting :=
  { warmupIdx := 0, schedules := models.map (NewSchedule now) }

/-- `Iterator` (least_latency.go lines 83-85): the strategy returns itself
as the per-request iterator; no per-request state is created. -/
def LeastLatencyRouting.Iterator (r : LeastLatencyRouting) : LeastLatencyRouting := r

/-- The filter condition of `getColdModelSchedules` (least_latency.go line
153): healthy and not warmed up. -/
def isCold (lat : LatencyGetter) (s : ModelSchedule) : Bool :=
  s.model.healthy && !(lat s.model).WarmedUp

/-- `getColdModelSchedules` (least_latency.go lines 149-159). -/
def getColdModelSchedules (lat : LatencyGetter) (r : LeastLatencyRouting) : List ModelSchedule :=
  r.schedules.filter (isCold lat)

/-- The cold schedules of `getColdModelSchedules`, by position in
`r.schedules` (the Go code holds pointers into the same backing array; the
embedding tracks indices so that the in-place `schedule.Update()` can be
expressed). -/
def coldIndices (lat : LatencyGetter) (r : LeastLatencyRouting) : List Nat :=
  (List.range r.schedules.length).filter (fun i => isCold lat (r.schedules.getD i default))

/-- In-place update of the schedule at index `i` (the Go code mutates the
pointed-to `ModelSchedule`). -/
def touchAt (now : Nat) : Nat → List ModelSchedule → List ModelSchedule
  | _, [] => []
  | 0, s :: rest => s.Update now :: rest
  | i + 1, s :: rest => s :: touchAt now i rest

/-- One iteration of the selection loop of `Next` (least_latency.go lines
114-138): skip unhealthy models; adopt the first healthy one; afterwards
prefer an expired schedule with strictly earlier `expireAt`, else the model
with strictly smaller latency when neither schedule is expired. -/
def scanStep (lat : LatencyGetter) (now : Nat)
    (acc : Option (Nat × ModelSchedule)) (p : Nat × ModelSchedule) :
    Option (Nat × ModelSchedule) :=
  if p.2.model.healthy = false then acc
  else
    match acc with
    | none => some p
    | some q =>
      if p.2.Expired now = true ∧ p.2.ExpireAt < q.2.ExpireAt then some p
      else if p.2.Expired now = false ∧ q.2.Expired now = false ∧
          (lat q.2.model).Value > (lat p.2.model).Value then some p
      else some q

/-- The selection loop of `Next` (least_latency.go lines 112-138), carrying
the position of the current candidate. -/
def scanSchedules (lat : LatencyGetter) (now : Nat) :
    Nat → Option (Nat × ModelSchedule) → List ModelSchedule → Option (Nat × ModelSchedule)
  | _, acc, [] => acc
  | i, acc, s :: rest => scanSchedules lat now (i + 1) (scanStep lat now acc (i, s)) rest

/-- `ErrNoHealthyModels` and the routing error surface. -/
inductive RoutingError where
  | noHealthyModels
  deriving DecidableEq

deriving instance DecidableEq for Except

/-- `Next` (least_latency.go lines 98-147).  The `uint32` cursor semantics
of `r.warmupIdx.Add(1) - 1` read the pre-increment value modulo 2^32 and
store the incremented value modulo 2^32. -/
def LeastLatencyRouting.Next (lat : LatencyGetter) (now : Nat) (r : LeastLatencyRouting) :
    Except RoutingError Model × LeastLatencyRouting :=
  let cold := coldIndices lat r
  if 0 < cold.length then
    let idx := r.warmupIdx % 4294967296
    let ci := cold.getD (idx % cold.length) 0
    (Except.ok ((r.schedules.getD ci default).model),
      { warmupIdx := (r.warmupIdx + 1) % 4294967296,
        schedules := touchAt now ci r.schedules })
  else
    match scanSchedules lat now 0 none r.schedules with
    | none => (Except.error RoutingError.noHealthyModels, r)
    | some (j, ns) =>
      (Except.ok ns.model, { r with schedules := touchAt now j r.schedules })

/-- Modelled from the spec: the dispatch loop (spec section 4.3 step 4)
observes the elapsed latency of a successful call on the chosen model's
tracker; the router code is not among the given sources. -/
def observeModel (lat : LatencyGetter) (m : Model) (x : Rat) : LatencyGetter :=
  fun q => if q.id = m.id then (lat q).Observe x else lat q

/-- Modelled from the spec: one successful request against the
least-latency router (spec sections 4.2 and 4.3): pick a candidate via
`Next`, then observe the call's latency on that candidate. -/
def successfulRequest (now : Nat) (x : Rat)
    (st : LatencyGetter × LeastLatencyRouting) : LatencyGetter × LeastLatencyRouting :=
  match LeastLatencyRouting.Next st.1 now st.2 with
  | (Except.ok m, r) => (observeModel st.1 m x, r)
  | (Except.error _, r) => (st.1, r)

/-! Embedding of the Cohere provider client (chat path). -/

/-- The Cohere-specific chat history entry built by `createRequestSchema`:
only role and content, no name field. -/
structure CohereChatMessage where
  Role : String
  Content : String
  deriving DecidableEq, Inhabited

/-- `schemas.ChatMessage`: role, content and the optional name (the name is
never copied into Cohere requests). -/
structure SchemaChatMessage where
  Role : String
  Content : String
  Name : String
  deriving DecidableEq, Inhabited

/-- `schemas.ChatRequest`: the normalized inbound request. -/
structure SchemaChatRequest where
  Message : SchemaChatMessage
  MessageHistory : List SchemaChatMessage
  deriving DecidableEq, Inhabited

/-- The `cfg.DefaultParams` block read by `NewChatRequestFromConfig`. -/
structure CohereDefaultParams where
  Temperature : Rat
  Preamble : String
  PromptTruncation : String
  Connectors : List String
  SearchQueriesOnly : Bool
  deriving DecidableEq, Inhabited

/-- The Cohere client `Config` as used by the chat path. -/
structure Config where
  Model : String
  APIKey : String
  DefaultParams : CohereDefaultParams
  deriving DecidableEq, Inhabited

/-- The Cohere `ChatRequest` wire payload. -/
structure CohereChatRequest where
  Model : String
  Message : String
  Temperature : Rat
  Preamble : String
  PromptTruncation : String
  Connectors : List String
  SearchQueriesOnly : Bool
  Stream : Bool
  ChatHistory : List CohereChatMessage
  deriving DecidableEq, Inhabited

/-- `NewChatRequestFromConfig` (cohere client, lines 19-29): fills the
template from the config; unset Go fields (`Message`, `ChatHistory`) take
their zero values. -/
def NewChatRequestFromConfig (cfg : Config) : CohereChatRequest :=
  { Model := cfg.Model
    Message := ""
    Temperature := cfg.DefaultParams.Temperature
    Preamble := cfg.DefaultParams.Preamble
    PromptTruncation := cfg.DefaultParams.PromptTruncation
    Connectors := cfg.DefaultParams.Connectors
    SearchQueriesOnly := cfg.DefaultParams.SearchQueriesOnly
    Stream := false
    ChatHistory := [] }

/-- `createRequestSchema` (cohere client, lines 48-69): copy the template,
set `Message`, and when the history is non-empty rebuild `ChatHistory`
from it (role and content only). -/
def createRequestSchema (template : CohereChatRequest) (request : SchemaChatRequest) :
    CohereChatRequest :=
  let chatRequest := { template with Message := request.Message.Content }
  if 0 < request.MessageHistory.length then
    { chatRequest with
      ChatHistory := request.MessageHistory.map
        (fun m => { Role := m.Role, Content := m.Content }) }
  else chatRequest

/-- The token counts of the Cohere `ChatCompletion` payload. -/
structure CohereTokenCount where
  PromptTokens : Nat
  ResponseTokens : Nat
  TotalTokens : Nat
  deriving DecidableEq, Inhabited

/-- The Cohere `ChatCompletion` response payload fields used by the
mapping. -/
structure ChatCompletion where
  ResponseID : String
  GenerationID : String
  Text : String
  TokenCount : CohereTokenCount
  deriving DecidableEq, Inhabited

/-- `schemas.TokenUsage`. -/
structure TokenUsage where
  PromptTokens : Nat
  ResponseTokens : Nat
  TotalTokens : Nat
  deriving DecidableEq, Inhabited

/-- `schemas.ModelResponse`. -/
structure SchemaModelResponse where
  SystemID : List (String × String)
  Message : SchemaChatMessage
  TokenUsage : TokenUsage
  deriving DecidableEq, Inhabited

/-- `schemas.ChatResponse`: the normalized outbound response. -/
structure SchemaChatResponse where
  ID : String
  Created : Nat
  Provider : String
  ModelName : String
  Cached : Bool
  ModelResponse : SchemaModelResponse
  deriving DecidableEq, Inhabited

/-- The errors the Cohere chat path can produce.  `mapped` stands for
`errMapper.Map(resp)` applied to the received response (the mapper lives
outside the given fragment, so the embedding tags the response it was
applied to); `providerUnavailable` is `clients.ErrProviderUnavailable`;
`transportFailure` is the wrapped error of a failed `httpClient.Do`. -/
inductive ChatError where
  | transportFailure (msg : String)
  | mapped (status : Nat) (body : String)
  | providerUnavailable
  | parseError
  | emptyResponse
  deriving DecidableEq

/-- `ErrEmptyResponse` sentinel (defined outside the given fragment). -/
def ErrEmptyResponse : ChatError := ChatError.emptyResponse

/-- Modelled from the spec: the stable Cohere provider tag `providerName`
(defined outside the given fragment). -/
def providerName : String := "cohere"

/-- The observable outcome of `httpClient.Do`: a transport-level failure,
or a received response with its status code and body. -/
inductive HTTPOutcome where
  | transportError (msg : String)
  | response (statusCode : Nat) (body : String)
  deriving DecidableEq

/-- `doChatRequest` (cohere client, lines 71-163) from the `httpClient.Do`
step onward (marshalling of the payload and request construction cannot
fail on the data embedded here).  `parse` stands for `json.Unmarshal` into
`ChatCompletion`; `now` is the gateway clock read for `Created`.  The
source's non-OK branch contains a nested check of the same condition, so
the trailing `clients.ErrProviderUnavailable` return is unreachable; the
embedding keeps both branches verbatim. -/
def doChatRequest (cfg : Config) (now : Nat) (outcome : HTTPOutcome)
    (parse : String → Option ChatCompletion) : Except ChatError SchemaChatResponse :=
  match outcome with
  | HTTPOutcome.transportError msg => Except.error (ChatError.transportFailure msg)
  | HTTPOutcome.response statusCode body =>
    if statusCode ≠ 200 then
      if statusCode ≠ 200 then Except.error (ChatError.mapped statusCode body)
      else Except.error ChatError.providerUnavailable
    else
      match parse body with
      | none => Except.error ChatError.parseError
      | some cohereCompletion =>
        Except.ok
          { ID := cohereCompletion.ResponseID
            Created := now
            Provider := providerName
            ModelName := cfg.Model
            Cached := false
            ModelResponse :=
              { SystemID :=
                  [("generationId", cohereCompletion.GenerationID),
                   ("responseId", cohereCompletion.ResponseID)]
                Message :=
                  { Role := "model"
                    Content := cohereCompletion.Text
                    Name := "" }
                TokenUsage :=
                  { PromptTokens := cohereCompletion.TokenCount.PromptTokens
                    ResponseTokens := cohereCompletion.TokenCount.ResponseTokens
                    TotalTokens := cohereCompletion.TokenCount.TotalTokens } } }

/-- `Chat` (cohere client, lines 32-46): build the provider request, run
`doChatRequest`, and reject responses whose message content is empty with
`ErrEmptyResponse`. -/
def Chat (cfg : Config) (template : CohereChatRequest) (now : Nat) (outcome : HTTPOutcome)
    (parse : String → Option ChatCompletion) (request : SchemaChatRequest) :
    Except ChatError SchemaChatResponse :=
  let _chatRequest := createRequestSchema template request
  match doChatRequest cfg now outcome parse with
  | Except.error e => Except.error e
  | Except.ok chatResponse =>
    if chatResponse.ModelResponse.Message.Content.length = 0 then
      Except.error ErrEmptyResponse
    else Except.ok chatResponse

/-- The router's error classes (spec section 4.5). -/
inductive ErrorClass where
  | nonRetryable
  | transientUnavailable
  | budgetExhausted
  deriving DecidableEq

/-- Modelled from the spec: the router's error classifier (spec section
4.5, not among the given sources).  5xx, 408, 429, connect failures,
timeouts and empty-response sentinels are transient. -/
def classify : ChatError → ErrorClass
  | ChatError.transportFailure _ => ErrorClass.transientUnavailable
  | ChatError.mapped statusCode _ =>
    if 500 ≤ statusCode ∨ statusCode = 408 ∨ statusCode = 429 then
      ErrorClass.transientUnavailable
    else ErrorClass.nonRetryable
  | ChatError.providerUnavailable => ErrorClass.transientUnavailable
  | ChatError.parseError => ErrorClass.transientUnavailable
  | ChatError.emptyResponse => ErrorClass.transientUnavailable

/-- Modelled from the spec: the dispatch loop records the elapsed time of a
call as a latency sample only when the call succeeded (spec sections 4.3
and 8, no latency pollution on failure). -/
def dispatchObserve (lat : LatencyGetter) (m : Model) (elapsed : Rat)
    (result : Except ChatError SchemaChatResponse) : LatencyGetter :=
  match result with
  | Except.ok _ => observeModel lat m elapsed
  | Except.error _ => lat

/-- C6: immediately after `Update()`, the schedule's deadline is
`now + model.latencyUpdateInterval`, strictly in the future when the
interval is positive, and `Expired()` is false at the touch instant. -/
theorem C6_schedule_touch (s : ModelSchedule) (now : Nat)
    (h : 0 < s.model.latencyUpdateInterval) :
    (s.Update now).expireAt = now + s.model.latencyUpdateInterval ∧
    now < (s.Update now).expireAt ∧
    (s.Update now).Expired now = false := by
  refine ⟨rfl, ?_, ?_⟩
  · simp only [ModelSchedule.Update]
    omega
  · simp only [ModelSchedule.Expired, ModelSchedule.Update, decide_eq_false_iff_not, not_lt]
    omega

theorem C6_witness :
    0 < (ModelSchedule.mk (Model.mk "a" true 5) 0).model.latencyUpdateInterval ∧
    ((ModelSchedule.mk (Model.mk "a" true 5) 0).Update 7).expireAt =
      7 + (ModelSchedule.mk (Model.mk "a" true 5) 0).model.latencyUpdateInterval ∧
    7 < ((ModelSchedule.mk (Model.mk "a" true 5) 0).Update 7).expireAt ∧
    ((ModelSchedule.mk (Model.mk "a" true 5) 0).Update 7).Expired 7 = false :=
  ⟨by decide, C6_schedule_touch (ModelSchedule.mk (Model.mk "a" true 5) 0) 7 (by decide)⟩

/-! Auxiliary lemmas about the selection loop of `Next`. -/

theorem Expired_true_iff (s : ModelSchedule) (now : Nat) :
    s.Expired now = true ↔ s.expireAt < now := by
  simp [ModelSchedule.Expired]

theorem Expired_false_iff (s : ModelSchedule) (now : Nat) :
    s.Expired now = false ↔ now ≤ s.expireAt := by
  simp [ModelSchedule.Expired]

theorem healthy_false_of_not_true (b : Bool) (h : ¬b = true) : b = false := by
  cases b
  · rfl
  · exact absurd rfl h

theorem scanStep_unhealthy (lat : LatencyGetter) (now : Nat)
    (acc : Option (Nat × ModelSchedule)) (p : Nat × ModelSchedule)
    (h : p.2.model.healthy = false) : scanStep lat now acc p = acc := by
  unfold scanStep
  rw [if_pos h]

theorem scanStep_none_healthy (lat : LatencyGetter) (now : Nat) (p : Nat × ModelSchedule)
    (h : p.2.model.healthy = true) : scanStep lat now none p = some p := by
  unfold scanStep
  rw [if_neg (by simp [h])]

theorem scanStep_some_take_expired (lat : LatencyGetter) (now : Nat)
    (q p : Nat × ModelSchedule) (h : p.2.model.healthy = true)
    (h1 : p.2.Expired now = true ∧ p.2.ExpireAt < q.2.ExpireAt) :
    scanStep lat now (some q) p = some p := by
  unfold scanStep
  rw [if_neg (by simp [h])]
  exact if_pos h1

theorem scanStep_some_take_latency (lat : LatencyGetter) (now : Nat)
    (q p : Nat × ModelSchedule) (h : p.2.model.healthy = true)
    (h1 : ¬(p.2.Expired now = true ∧ p.2.ExpireAt < q.2.ExpireAt))
    (h2 : p.2.Expired now = false ∧ q.2.Expired now = false ∧
      (lat q.2.model).Value > (lat p.2.model).Value) :
    scanStep lat now (some q) p = some p := by
  unfold scanStep
  rw [if_neg (by simp [h])]
  exact (if_neg h1).trans (if_pos h2)

theorem scanStep_some_keep (lat : LatencyGetter) (now : Nat)
    (q p : Nat × ModelSchedule) (h : p.2.model.healthy = true)
    (h1 : ¬(p.2.Expired now = true ∧ p.2.ExpireAt < q.2.ExpireAt))
    (h2 : ¬(p.2.Expired now = false ∧ q.2.Expired now = false ∧
      (lat q.2.model).Value > (lat p.2.model).Value)) :
    scanStep lat now (some q) p = some q := by
  unfold scanStep
  rw [if_neg (by simp [h])]
  exact (if_neg h1).trans (if_neg h2)

theorem scanStep_cases (lat : LatencyGetter) (now : Nat)
    (acc : Option (Nat × ModelSchedule)) (p : Nat × ModelSchedule) :
    scanStep lat now acc p = acc ∨
      (scanStep lat now acc p = some p ∧ p.2.model.healthy = true) := by
  by_cases hh : p.2.model.healthy = true
  · cases acc with
    | none => exact Or.inr ⟨scanStep_none_healthy lat now p hh, hh⟩
    | some q =>
      by_cases h1 : p.2.Expired now = true ∧ p.2.ExpireAt < q.2.ExpireAt
      · exact Or.inr ⟨scanStep_some_take_expired lat now q p hh h1, hh⟩
      · by_cases h2 : p.2.Expired now = false ∧ q.2.Expired now = false ∧
            (lat q.2.model).Value > (lat p.2.model).Value
        · exact Or.inr ⟨scanStep_some_take_latency lat now q p hh h1 h2, hh⟩
        · exact Or.inl (scanStep_some_keep lat now q p hh h1 h2)
  · exact Or.inl (scanStep_unhealthy lat now acc p (healthy_false_of_not_true _ hh))

theorem scanSchedules_nil (lat : LatencyGetter) (now : Nat) (i : Nat)
    (acc : Option (Nat × ModelSchedule)) : scanSchedules lat now i acc [] = acc := rfl

theorem scanSchedules_cons (lat : LatencyGetter) (now : Nat) (i : Nat)
    (acc : Option (Nat × ModelSchedule)) (s : ModelSchedule) (rest : List ModelSchedule) :
    scanSchedules lat now i acc (s :: rest) =
      scanSchedules lat now (i + 1) (scanStep lat now acc (i, s)) rest := rfl

theorem scan_src (lat : LatencyGetter) (now : Nat) (P : Nat → ModelSchedule → Prop) :
    ∀ (l : List ModelSchedule) (i : Nat) (acc : Option (Nat × ModelSchedule)),
      (∀ j ns, acc = some (j, ns) → P j ns) →
      (∀ k s, l.get? k = some s → s.model.healthy = true → P (i + k) s) →
      ∀ j ns, scanSchedules lat now i acc l = some (j, ns) → P j ns := by
  intro l
  induction l with
  | nil =>
    intro i acc hacc _ j ns hscan
    exact hacc j ns hscan
  | cons s rest ih =>
    intro i acc hacc hl j ns hscan
    rw [scanSchedules_cons] at hscan
    refine ih (i + 1) (scanStep lat now acc (i, s)) ?_ ?_ j ns hscan
    · intro j' ns' h'
      rcases scanStep_cases lat now acc (i, s) with hc | ⟨hc, hh⟩
      · exact hacc j' ns' (by rw [← hc]; exact h')
      · have heq : some ((i, s) : Nat × ModelSchedule) = some (j', ns') := hc.symm.trans h'
        have heq2 : (i, s) = (j', ns') := Option.some.inj heq
        obtain ⟨rfl, rfl⟩ := Prod.mk.inj heq2
        have := hl 0 s rfl hh
        simpa using this
    · intro k s' hk hh'
      have := hl (k + 1) s' hk hh'
      have harith : i + (k + 1) = (i + 1) + k := by omega
      rwa [harith] at this

theorem scan_none (lat : LatencyGetter) (now : Nat) :
    ∀ (l : List ModelSchedule) (i : Nat),
      (∀ s ∈ l, s.model.healthy = false) →
      scanSchedules lat now i none l = none := by
  intro l
  induction l with
  | nil => intro i _; rfl
  | cons s rest ih =>
    intro i hl
    rw [scanSchedules_cons,
      scanStep_unhealthy lat now none (i, s) (hl s (List.mem_cons_self s rest))]
    exact ih (i + 1) (fun t ht => hl t (List.mem_cons_of_mem s ht))

theorem scan_isSome_of_acc (lat : LatencyGetter) (now : Nat) :
    ∀ (l : List ModelSchedule) (i : Nat) (q : Nat × ModelSchedule),
      (scanSchedules lat now i (some q) l).isSome = true := by
  intro l
  induction l with
  | nil => intro i q; rfl
  | cons s rest ih =>
    intro i q
    rw [scanSchedules_cons]
    rcases scanStep_cases lat now (some q) (i, s) with hc | ⟨hc, _⟩
    · rw [hc]; exact ih (i + 1) q
    · rw [hc]; exact ih (i + 1) (i, s)

theorem scan_isSome_of_mem (lat : LatencyGetter) (now : Nat) :
    ∀ (l : List ModelSchedule) (i : Nat),
      (∃ s ∈ l, s.model.healthy = true) →
      (scanSchedules lat now i none l).isSome = true := by
  intro l
  induction l with
  | nil =>
    rintro i ⟨s, hs, _⟩
    cases hs
  | cons s rest ih =>
    rintro i ⟨t, ht, hth⟩
    rw [scanSchedules_cons]
    by_cases hs : s.model.healthy = true
    · rw [scanStep_none_healthy lat now (i, s) hs]
      exact scan_isSome_of_acc lat now rest (i + 1) (i, s)
    · rw [scanStep_unhealthy lat now none (i, s) (healthy_false_of_not_true _ hs)]
      rcases List.mem_cons.mp ht with rfl | ht'
      · exact absurd hth hs
      · exact ih (i + 1) ⟨t, ht', hth⟩

theorem scan_expired (lat : LatencyGetter) (now : Nat) :
    ∀ (l : List ModelSchedule) (i : Nat) (acc : Option (Nat × ModelSchedule))
      (j' : Nat) (ns' : ModelSchedule),
      scanSchedules lat now i acc l = some (j', ns') →
      ((∀ k s, l.get? k = some s → s.model.healthy = true → s.Expired now = true →
          ns'.Expired now = true ∧ ns'.expireAt ≤ s.expireAt) ∧
       (∀ j ns, acc = some (j, ns) → ns.Expired now = true →
          ns'.Expired now = true ∧ ns'.expireAt ≤ ns.expireAt)) := by
  intro l
  induction l with
  | nil =>
    intro i acc j' ns' hscan
    rw [scanSchedules_nil] at hscan
    constructor
    · intro k s hk
      cases hk
    · intro j ns hacc hexp
      rw [hacc] at hscan
      obtain ⟨rfl, rfl⟩ := Prod.mk.inj (Option.some.inj hscan)
      exact ⟨hexp, le_refl _⟩
  | cons s rest ih =>
    intro i acc j' ns' hscan
    rw [scanSchedules_cons] at hscan
    obtain ⟨ih1, ih2⟩ := ih (i + 1) (scanStep lat now acc (i, s)) j' ns' hscan
    by_cases hh : s.model.healthy = true
    · cases acc with
      | none =>
        have hstep : scanStep lat now none (i, s) = some (i, s) :=
          scanStep_none_healthy lat now (i, s) hh
        constructor
        · intro k t hk hth htexp
          match k, hk with
          | 0, hk =>
            have : s = t := Option.some.inj hk
            subst this
            exact ih2 i s hstep htexp
          | k + 1, hk => exact ih1 k t hk hth htexp
        · intro j ns hacc
          cases hacc
      | some q =>
        obtain ⟨j, ns⟩ := q
        by_cases h1 : (i, s).2.Expired now = true ∧ (i, s).2.ExpireAt < (j, ns).2.ExpireAt
        · have hstep : scanStep lat now (some (j, ns)) (i, s) = some (i, s) :=
            scanStep_some_take_expired lat now (j, ns) (i, s) hh h1
          rw [hstep] at ih2
          constructor
          · intro k t hk hth htexp
            match k, hk with
            | 0, hk =>
              have : s = t := Option.some.inj hk
              subst this
              exact ih2 i s rfl htexp
            | k + 1, hk => exact ih1 k t hk hth htexp
          · intro j₀ ns₀ hacc hexp
            obtain ⟨rfl, rfl⟩ := Prod.mk.inj (Option.some.inj hacc)
            have hd := ih2 i s rfl h1.1
            exact ⟨hd.1, le_trans hd.2 (le_of_lt h1.2)⟩
        · by_cases h2 : (i, s).2.Expired now = false ∧ (j, ns).2.Expired now = false ∧
              (lat (j, ns).2.model).Value > (lat (i, s).2.model).Value
          · have hstep : scanStep lat now (some (j, ns)) (i, s) = some (i, s) :=
              scanStep_some_take_latency lat now (j, ns) (i, s) hh h1 h2
            rw [hstep] at ih2
            constructor
            · intro k t hk hth htexp
              match k, hk with
              | 0, hk =>
                have : s = t := Option.some.inj hk
                subst this
                rw [h2.1] at htexp
                cases htexp
              | k + 1, hk => exact ih1 k t hk hth htexp
            · intro j₀ ns₀ hacc hexp
              obtain ⟨rfl, rfl⟩ := Prod.mk.inj (Option.some.inj hacc)
              rw [h2.2.1] at hexp
              cases hexp
          · have hstep : scanStep lat now (some (j, ns)) (i, s) = some (j, ns) :=
              scanStep_some_keep lat now (j, ns) (i, s) hh h1 h2
            rw [hstep] at ih2
            constructor
            · intro k t hk hth htexp
              match k, hk with
              | 0, hk =>
                have hst : s = t := Option.some.inj hk
                subst hst
                have hns_le : ns.expireAt ≤ s.expireAt := by
                  by_contra hlt
                  exact h1 ⟨htexp, by simpa [ModelSchedule.ExpireAt] using lt_of_not_le hlt⟩
                have hns_exp : ns.Expired now = true := by
                  rw [Expired_true_iff] at htexp ⊢
                  omega
                have hd := ih2 j ns rfl hns_exp
                exact ⟨hd.1, le_trans hd.2 hns_le⟩
              | k + 1, hk => exact ih1 k t hk hth htexp
            · intro j₀ ns₀ hacc hexp
              obtain ⟨rfl, rfl⟩ := Prod.mk.inj (Option.some.inj hacc)
              exact ih2 j ns rfl hexp
    · have hstep : scanStep lat now acc (i, s) = acc :=
        scanStep_unhealthy lat now acc (i, s) (healthy_false_of_not_true _ hh)
      rw [hstep] at ih2
      constructor
      · intro k t hk hth htexp
        match k, hk with
        | 0, hk =>
          have : s = t := Option.some.inj hk
          subst this
          exact absurd hth hh
        | k + 1, hk => exact ih1 k t hk hth htexp
      · exact ih2

theorem scan_minlat (lat : LatencyGetter) (now : Nat) :
    ∀ (l : List ModelSchedule) (i : Nat) (acc : Option (Nat × ModelSchedule)),
      (∀ j ns, acc = some (j, ns) → ns.Expired now = false ∧ j ≤ i) →
      (∀ k s, l.get? k = some s → s.model.healthy = true → s.Expired now = false) →
      ∀ (j' : Nat) (ns' : ModelSchedule),
      scanSchedules lat now i acc l = some (j', ns') →
      ((∀ k s, l.get? k = some s → s.model.healthy = true →
          ((lat ns'.model).Value ≤ (lat s.model).Value ∧
           ((lat s.model).Value ≤ (lat ns'.model).Value → j' ≤ i + k))) ∧
       (∀ j ns, acc = some (j, ns) →
          ((lat ns'.model).Value ≤ (lat ns.model).Value ∧
           ((lat ns.model).Value ≤ (lat ns'.model).Value → j' ≤ j)))) := by
  intro l
  induction l with
  | nil =>
    intro i acc hacc _ j' ns' hscan
    rw [scanSchedules_nil] at hscan
    constructor
    · intro k s hk
      cases hk
    · intro j ns heq
      rw [heq] at hscan
      obtain ⟨rfl, rfl⟩ := Prod.mk.inj (Option.some.inj hscan)
      exact ⟨le_refl _, fun _ => le_refl _⟩
  | cons s rest ih =>
    intro i acc hacc hl j' ns' hscan
    rw [scanSchedules_cons] at hscan
    have hl' : ∀ k t, rest.get? k = some t → t.model.healthy = true →
        t.Expired now = false := fun k t hk => hl (k + 1) t hk
    by_cases hh : s.model.healthy = true
    · have hs_exp : s.Expired now = false := hl 0 s rfl hh
      cases acc with
      | none =>
        have hstep : scanStep lat now none (i, s) = some (i, s) :=
          scanStep_none_healthy lat now (i, s) hh
        rw [hstep] at hscan
        have hacc' : ∀ j ns, (some ((i, s) : Nat × ModelSchedule)) = some (j, ns) →
            ns.Expired now = false ∧ j ≤ i + 1 := by
          intro j ns heq
          obtain ⟨rfl, rfl⟩ := Prod.mk.inj (Option.some.inj heq)
          exact ⟨hs_exp, Nat.le_succ i⟩
        obtain ⟨ihA, ihB⟩ := ih (i + 1) (some (i, s)) hacc' hl' j' ns' hscan
        constructor
        · intro k t hk hth
          match k, hk with
          | 0, hk =>
            have : s = t := Option.some.inj hk
            subst this
            have hd := ihB i s rfl
            exact ⟨hd.1, fun hle => by simpa using hd.2 hle⟩
          | k + 1, hk =>
            have hd := ihA k t hk hth
            refine ⟨hd.1, fun hle => ?_⟩
            have := hd.2 hle
            omega
        · intro j ns heq
          cases heq
      | some q =>
        obtain ⟨j, ns⟩ := q
        obtain ⟨hns_exp, hj_le⟩ := hacc j ns rfl
        have hn1 : ¬((i, s).2.Expired now = true ∧ (i, s).2.ExpireAt < (j, ns).2.ExpireAt) := by
          intro hc
          rw [hs_exp] at hc
          cases hc.1
        by_cases hv : (lat (j, ns).2.model).Value > (lat (i, s).2.model).Value
        · have hstep : scanStep lat now (some (j, ns)) (i, s) = some (i, s) :=
            scanStep_some_take_latency lat now (j, ns) (i, s) hh hn1 ⟨hs_exp, hns_exp, hv⟩
          rw [hstep] at hscan
          have hacc' : ∀ j₀ ns₀, (some ((i, s) : Nat × ModelSchedule)) = some (j₀, ns₀) →
              ns₀.Expired now = false ∧ j₀ ≤ i + 1 := by
            intro j₀ ns₀ heq
            obtain ⟨rfl, rfl⟩ := Prod.mk.inj (Option.some.inj heq)
            exact ⟨hs_exp, Nat.le_succ i⟩
          obtain ⟨ihA, ihB⟩ := ih (i + 1) (some (i, s)) hacc' hl' j' ns' hscan
          constructor
          · intro k t hk hth
            match k, hk with
            | 0, hk =>
              have : s = t := Option.some.inj hk
              subst this
              have hd := ihB i s rfl
              exact ⟨hd.1, fun hle => by simpa using hd.2 hle⟩
            | k + 1, hk =>
              have hd := ihA k t hk hth
              refine ⟨hd.1, fun hle => ?_⟩
              have := hd.2 hle
              omega
          · intro j₀ ns₀ heq
            obtain ⟨rfl, rfl⟩ := Prod.mk.inj (Option.some.inj heq)
            have hd := ihB i s rfl
            refine ⟨le_trans hd.1 (le_of_lt hv), fun hle => ?_⟩
            exact absurd (lt_of_le_of_lt (le_trans hle hd.1) hv) (lt_irrefl _)
        · have hn2 : ¬((i, s).2.Expired now = false ∧ (j, ns).2.Expired now = false ∧
              (lat (j, ns).2.model).Value > (lat (i, s).2.model).Value) := by
            intro hc
            exact hv hc.2.2
          have hstep : scanStep lat now (some (j, ns)) (i, s) = some (j, ns) :=
            scanStep_some_keep lat now (j, ns) (i, s) hh hn1 hn2
          rw [hstep] at hscan
          have hacc' : ∀ j₀ ns₀, (some ((j, ns) : Nat × ModelSchedule)) = some (j₀, ns₀) →
              ns₀.Expired now = false ∧ j₀ ≤ i + 1 := by
            intro j₀ ns₀ heq
            obtain ⟨rfl, rfl⟩ := Prod.mk.inj (Option.some.inj heq)
            exact ⟨hns_exp, le_trans hj_le (Nat.le_succ i)⟩
          obtain ⟨ihA, ihB⟩ := ih (i + 1) (some (j, ns)) hacc' hl' j' ns' hscan
          have hns_le_s : (lat ns.model).Value ≤ (lat s.model).Value := le_of_not_lt hv
          constructor
          · intro k t hk hth
            match k, hk with
            | 0, hk =>
              have : s = t := Option.some.inj hk
              subst this
              have hd := ihB j ns rfl
              refine ⟨le_trans hd.1 hns_le_s, fun hle => ?_⟩
              have hj' : j' ≤ j := hd.2 (le_trans hns_le_s hle)
              omega
            | k + 1, hk =>
              have hd := ihA k t hk hth
              refine ⟨hd.1, fun hle => ?_⟩
              have := hd.2 hle
              omega
          · intro j₀ ns₀ heq
            obtain ⟨rfl, rfl⟩ := Prod.mk.inj (Option.some.inj heq)
            exact ihB j ns rfl
    · have hstep : scanStep lat now acc (i, s) = acc :=
        scanStep_unhealthy lat now acc (i, s) (healthy_false_of_not_true _ hh)
      rw [hstep] at hscan
      have hacc' : ∀ j₀ ns₀, acc = some (j₀, ns₀) →
          ns₀.Expired now = false ∧ j₀ ≤ i + 1 := by
        intro j₀ ns₀ heq
        obtain ⟨h1, h2⟩ := hacc j₀ ns₀ heq
        exact ⟨h1, le_trans h2 (Nat.le_succ i)⟩
      obtain ⟨ihA, ihB⟩ := ih (i + 1) acc hacc' hl' j' ns' hscan
      constructor
      · intro k t hk hth
        match k, hk with
        | 0, hk =>
          have : s = t := Option.some.inj hk
          subst this
          exact absurd hth hh
        | k + 1, hk =>
          have hd := ihA k t hk hth
          refine ⟨hd.1, fun hle => ?_⟩
          have := hd.2 hle
          omega
      · exact ihB

/-! Auxiliary lemmas about the cold-model list and index bookkeeping. -/

theorem get?_isSome_of_lt {α : Type} (l : List α) (i : Nat) (h : i < l.length) :
    ∃ a, l.get? i = some a := by
  rw [List.get?_eq_getElem?]
  exact ⟨l[i], List.getElem?_eq_some_iff.mpr ⟨h, rfl⟩⟩

theorem getD_of_get? {α : Type} (l : List α) (i : Nat) (d a : α)
    (h : l.get? i = some a) : l.getD i d = a := by
  rw [List.getD_eq_getElem?_getD, ← List.get?_eq_getElem?, h]
  rfl

theorem mem_coldIndices (lat : LatencyGetter) (r : LeastLatencyRouting) (i : Nat) :
    i ∈ coldIndices lat r ↔
      i < r.schedules.length ∧ isCold lat (r.schedules.getD i default) = true := by
  simp [coldIndices, List.mem_filter, List.mem_range]

theorem filter_by_index (p : ModelSchedule → Bool) :
    ∀ (l : List ModelSchedule),
      ((List.range l.length).filter (fun i => p (l.getD i default))).map
        (fun i => l.getD i default) = l.filter p := by
  intro l
  induction l with
  | nil => rfl
  | cons a l ih =>
    have h1 : List.range (a :: l).length = 0 :: (List.range l.length).map Nat.succ := by
      rw [List.length_cons, List.range_succ_eq_map]
    have hcomp1 : ((fun i => p ((a :: l).getD i default)) ∘ Nat.succ) =
        fun i => p (l.getD i default) := by
      funext i
      simp [Function.comp, List.getD_cons_succ]
    have hcomp2 : ((fun i => (a :: l).getD i default) ∘ Nat.succ) =
        (fun i => l.getD i default) := by
      funext i
      simp [Function.comp, List.getD_cons_succ]
    have h0 : (a :: l).getD 0 default = a := List.getD_cons_zero
    rw [h1, List.filter_cons, List.filter_cons]
    by_cases hpa : p a = true
    · rw [if_pos (by rw [h0]; exact hpa), if_pos hpa, List.map_cons, h0,
        List.filter_map, List.map_map, hcomp1, hcomp2, ih]
    · rw [if_neg (by rw [h0]; exact hpa), if_neg hpa,
        List.filter_map, List.map_map, hcomp1, hcomp2, ih]

theorem coldIndices_map (lat : LatencyGetter) (r : LeastLatencyRouting) :
    (coldIndices lat r).map (fun i => r.schedules.getD i default) =
      getColdModelSchedules lat r :=
  filter_by_index (isCold lat) r.schedules

theorem coldIndices_length (lat : LatencyGetter) (r : LeastLatencyRouting) :
    (coldIndices lat r).length = (getColdModelSchedules lat r).length := by
  rw [← coldIndices_map]
  exact (List.length_map _ _).symm

theorem cold_getD (lat : LatencyGetter) (r : LeastLatencyRouting) (m : Nat)
    (h : m < (coldIndices lat r).length) :
    r.schedules.getD ((coldIndices lat r).getD m 0) default =
      (getColdModelSchedules lat r).getD m default := by
  obtain ⟨ci, hm⟩ := get?_isSome_of_lt (coldIndices lat r) m h
  have hmap : ((coldIndices lat r).map (fun i => r.schedules.getD i default)).get? m =
      some (r.schedules.getD ci default) := by
    rw [List.get?_eq_getElem?, List.getElem?_map, ← List.get?_eq_getElem?, hm]
    rfl
  rw [coldIndices_map] at hmap
  rw [getD_of_get? (coldIndices lat r) m 0 ci hm,
    getD_of_get? (getColdModelSchedules lat r) m default _ hmap]

theorem touchAt_get?_self (now : Nat) :
    ∀ (l : List ModelSchedule) (i : Nat) (s : ModelSchedule),
      l.get? i = some s → (touchAt now i l).get? i = some (s.Update now) := by
  intro l
  induction l with
  | nil =>
    intro i s h
    cases h
  | cons a l ih =>
    intro i s h
    match i, h with
    | 0, h =>
      have : a = s := Option.some.inj h
      subst this
      rfl
    | i + 1, h => exact ih i s h

theorem touchAt_get?_other (now : Nat) :
    ∀ (l : List ModelSchedule) (i k : Nat), k ≠ i →
      (touchAt now i l).get? k = l.get? k := by
  intro l
  induction l with
  | nil =>
    intro i k _
    cases i <;> rfl
  | cons a l ih =>
    intro i k hne
    match i, k with
    | 0, 0 => exact absurd rfl hne
    | 0, k + 1 => rfl
    | i + 1, 0 => rfl
    | i + 1, k + 1 => exact ih i k (fun hc => hne (by omega))

theorem Next_latency_branch (lat : LatencyGetter) (now : Nat) (r : LeastLatencyRouting)
    (hcold : coldIndices lat r = []) (j : Nat) (ns : ModelSchedule)
    (hscan : scanSchedules lat now 0 none r.schedules = some (j, ns)) :
    LeastLatencyRouting.Next lat now r =
      (Except.ok ns.model, { r with schedules := touchAt now j r.schedules }) := by
  unfold LeastLatencyRouting.Next
  rw [hcold]
  simp only [List.length_nil, lt_irrefl, if_false, hscan]

theorem Next_error_branch (lat : LatencyGetter) (now : Nat) (r : LeastLatencyRouting)
    (hcold : coldIndices lat r = [])
    (hscan : scanSchedules lat now 0 none r.schedules = none) :
    LeastLatencyRouting.Next lat now r = (Except.error RoutingError.noHealthyModels, r) := by
  unfold LeastLatencyRouting.Next
  rw [hcold]
  simp only [List.length_nil, lt_irrefl, if_false, hscan]

theorem Next_cold_branch (lat : LatencyGetter) (now : Nat) (r : LeastLatencyRouting)
    (hlen : 0 < (coldIndices lat r).length) :
    LeastLatencyRouting.Next lat now r =
      (Except.ok ((r.schedules.getD ((coldIndices lat r).getD
          (r.warmupIdx % 4294967296 % (coldIndices lat r).length) 0) default).model),
        { warmupIdx := (r.warmupIdx + 1) % 4294967296,
          schedules := touchAt now ((coldIndices lat r).getD
            (r.warmupIdx % 4294967296 % (coldIndices lat r).length) 0) r.schedules }) := by
  unfold LeastLatencyRouting.Next
  rw [if_pos hlen]

/-- C2: when no healthy model is cold, `Next` follows the priority cascade:
the selected schedule is healthy; whenever any healthy schedule is expired,
the selected one is expired with the minimal `expireAt` among them; and if
no healthy schedule is expired, the selected model has the minimal
`latency.Value()` among healthy models, with ties broken in favor of the
earlier position in configured order. -/
theorem C2_latency_cascade (lat : LatencyGetter) (now : Nat) (r : LeastLatencyRouting)
    (hcold : coldIndices lat r = []) (j : Nat) (ns : ModelSchedule)
    (hscan : scanSchedules lat now 0 none r.schedules = some (j, ns)) :
    (LeastLatencyRouting.Next lat now r).1 = Except.ok ns.model ∧
    r.schedules.get? j = some ns ∧
    ns.model.healthy = true ∧
    (∀ k s, r.schedules.get? k = some s → s.model.healthy = true → s.Expired now = true →
      ns.Expired now = true ∧ ns.expireAt ≤ s.expireAt) ∧
    ((∀ k s, r.schedules.get? k = some s → s.model.healthy = true → s.Expired now = false) →
      ∀ k s, r.schedules.get? k = some s → s.model.healthy = true →
        (lat ns.model).Value ≤ (lat s.model).Value ∧
        ((lat s.model).Value ≤ (lat ns.model).Value → j ≤ k)) := by
  have hsrc := scan_src lat now
    (fun j₀ ns₀ => r.schedules.get? j₀ = some ns₀ ∧ ns₀.model.healthy = true)
    r.schedules 0 none
    (by intro j₀ ns₀ h; cases h)
    (by
      intro k s hk hh
      rw [Nat.zero_add]
      exact ⟨hk, hh⟩)
    j ns hscan
  refine ⟨?_, hsrc.1, hsrc.2, ?_, ?_⟩
  · rw [Next_latency_branch lat now r hcold j ns hscan]
  · exact (scan_expired lat now r.schedules 0 none j ns hscan).1
  · intro hnone k s hk hh
    have hmin := (scan_minlat lat now r.schedules 0 none
      (by intro j₀ ns₀ h; cases h) hnone j ns hscan).1 k s hk hh
    refine ⟨hmin.1, fun hle => ?_⟩
    have := hmin.2 hle
    omega

def mA : Model := { id := "a", healthy := true, latencyUpdateInterval := 10 }

def mB : Model := { id := "b", healthy := true, latencyUpdateInterval := 10 }

def warmTracker : MovingAverage :=
  { avg := 2, sampleCount := 3, warmupThreshold := 1, decay := 1/2 }

def latW2 : LatencyGetter := fun _ => warmTracker

def rW2 : LeastLatencyRouting :=
  { warmupIdx := 0,
    schedules := [{ model := mA, expireAt := 10 }, { model := mB, expireAt := 1 }] }

theorem C2_witness :
    coldIndices latW2 rW2 = [] ∧
    scanSchedules latW2 5 0 none rW2.schedules = some (1, { model := mB, expireAt := 1 }) ∧
    (LeastLatencyRouting.Next latW2 5 rW2).1 = Except.ok mB :=
  ⟨by decide, by decide,
    (C2_latency_cascade latW2 5 rW2 (by decide) 1 { model := mB, expireAt := 1 } (by decide)).1⟩

theorem Next_cold_spec (lat : LatencyGetter) (now : Nat) (r : LeastLatencyRouting)
    (hcold : coldIndices lat r ≠ []) :
    ∃ ci s,
      ci = (coldIndices lat r).getD
        (r.warmupIdx % 4294967296 % (coldIndices lat r).length) 0 ∧
      r.schedules.get? ci = some s ∧
      s.model.healthy = true ∧
      (lat s.model).WarmedUp = false ∧
      s.model = ((getColdModelSchedules lat r).getD
        (r.warmupIdx % 4294967296 % (getColdModelSchedules lat r).length) default).model ∧
      (LeastLatencyRouting.Next lat now r).1 = Except.ok s.model ∧
      (LeastLatencyRouting.Next lat now r).2.warmupIdx = (r.warmupIdx + 1) % 4294967296 ∧
      (LeastLatencyRouting.Next lat now r).2.schedules.get? ci = some (s.Update now) ∧
      (∀ k, k ≠ ci →
        (LeastLatencyRouting.Next lat now r).2.schedules.get? k = r.schedules.get? k) := by
  have hlen : 0 < (coldIndices lat r).length := List.length_pos.mpr hcold
  have hm : r.warmupIdx % 4294967296 % (coldIndices lat r).length <
      (coldIndices lat r).length := Nat.mod_lt _ hlen
  obtain ⟨ci, hci⟩ := get?_isSome_of_lt (coldIndices lat r) _ hm
  have hciD : (coldIndices lat r).getD
      (r.warmupIdx % 4294967296 % (coldIndices lat r).length) 0 = ci :=
    getD_of_get? _ _ _ _ hci
  have hci_mem : ci ∈ coldIndices lat r := List.get?_mem hci
  obtain ⟨hci_lt, hci_cold⟩ := (mem_coldIndices lat r ci).mp hci_mem
  obtain ⟨s, hs⟩ := get?_isSome_of_lt r.schedules ci hci_lt
  have hsD : r.schedules.getD ci default = s := getD_of_get? _ _ _ _ hs
  rw [hsD] at hci_cold
  have hcold_s : s.model.healthy = true ∧ (lat s.model).WarmedUp = false := by
    have := hci_cold
    unfold isCold at this
    rw [Bool.and_eq_true] at this
    refine ⟨this.1, ?_⟩
    have h2 := this.2
    revert h2
    cases (lat s.model).WarmedUp <;> simp
  have hnext := Next_cold_branch lat now r hlen
  rw [hciD] at hnext
  refine ⟨ci, s, hciD.symm, hs, hcold_s.1, hcold_s.2, ?_, ?_, ?_, ?_, ?_⟩
  · have := cold_getD lat r (r.warmupIdx % 4294967296 % (coldIndices lat r).length) hm
    rw [hciD, hsD] at this
    rw [coldIndices_length] at this
    rw [← this]
  · rw [hnext, hsD]
  · rw [hnext]
  · rw [hnext]
    exact touchAt_get?_self now r.schedules ci s hs
  · intro k hk
    rw [hnext]
    exact touchAt_get?_other now r.schedules ci k hk

/-- C3: whenever the cold set is non-empty, `Next` returns the cold model
at position `warmup-cursor mod |cold|` in the cold list, increments the
warm-up cursor (as a `uint32`), and touches exactly that model's schedule;
the returned model is healthy and not warmed up. -/
theorem C3_warmup_roundrobin (lat : LatencyGetter) (now : Nat) (r : LeastLatencyRouting)
    (hcold : coldIndices lat r ≠ []) :
    ∃ ci s,
      ci = (coldIndices lat r).getD
        (r.warmupIdx % 4294967296 % (coldIndices lat r).length) 0 ∧
      r.schedules.get? ci = some s ∧
      s.model.healthy = true ∧
      (lat s.model).WarmedUp = false ∧
      s.model = ((getColdModelSchedules lat r).getD
        (r.warmupIdx % 4294967296 % (getColdModelSchedules lat r).length) default).model ∧
      (LeastLatencyRouting.Next lat now r).1 = Except.ok s.model ∧
      (LeastLatencyRouting.Next lat now r).2.warmupIdx = (r.warmupIdx + 1) % 4294967296 ∧
      (LeastLatencyRouting.Next lat now r).2.schedules.get? ci = some (s.Update now) ∧
      (∀ k, k ≠ ci →
        (LeastLatencyRouting.Next lat now r).2.schedules.get? k = r.schedules.get? k) :=
  Next_cold_spec lat now r hcold

def coldTracker : MovingAverage :=
  { avg := 0, sampleCount := 0, warmupThreshold := 1, decay := 1/2 }

def latCold : LatencyGetter := fun _ => coldTracker

def rW3 : LeastLatencyRouting :=
  { warmupIdx := 1,
    schedules := [{ model := mA, expireAt := 10 }, { model := mB, expireAt := 10 }] }

theorem C3_witness :
    coldIndices latCold rW3 ≠ [] ∧
    ∃ ci s,
      ci = (coldIndices latCold rW3).getD
        (rW3.warmupIdx % 4294967296 % (coldIndices latCold rW3).length) 0 ∧
      rW3.schedules.get? ci = some s ∧
      s.model.healthy = true ∧
      (latCold s.model).WarmedUp = false ∧
      s.model = ((getColdModelSchedules latCold rW3).getD
        (rW3.warmupIdx % 4294967296 % (getColdModelSchedules latCold rW3).length) default).model ∧
      (LeastLatencyRouting.Next latCold 5 rW3).1 = Except.ok s.model ∧
      (LeastLatencyRouting.Next latCold 5 rW3).2.warmupIdx = (rW3.warmupIdx + 1) % 4294967296 ∧
      (LeastLatencyRouting.Next latCold 5 rW3).2.schedules.get? ci = some (s.Update 5) ∧
      (∀ k, k ≠ ci →
        (LeastLatencyRouting.Next latCold 5 rW3).2.schedules.get? k = rW3.schedules.get? k) :=
  ⟨by decide, C3_warmup_roundrobin latCold 5 rW3 (by decide)⟩

/-- C4: `Next` returns the no-healthy-models error exactly when no
configured model is healthy; when at least one model is healthy it returns
a healthy model and no error. -/
theorem C4_no_healthy (lat : LatencyGetter) (now : Nat) (r : LeastLatencyRouting) :
    ((LeastLatencyRouting.Next lat now r).1 = Except.error RoutingError.noHealthyModels ↔
      ∀ s ∈ r.schedules, s.model.healthy = false) ∧
    ((∃ s ∈ r.schedules, s.model.healthy = true) →
      ∃ m, (LeastLatencyRouting.Next lat now r).1 = Except.ok m ∧ m.healthy = true) := by
  have hok : (∃ s ∈ r.schedules, s.model.healthy = true) →
      ∃ m, (LeastLatencyRouting.Next lat now r).1 = Except.ok m ∧ m.healthy = true := by
    rintro ⟨t, ht, hth⟩
    by_cases hcold : coldIndices lat r = []
    · have hsome := scan_isSome_of_mem lat now r.schedules 0 ⟨t, ht, hth⟩
      obtain ⟨p, hp⟩ := Option.isSome_iff_exists.mp hsome
      obtain ⟨j, ns⟩ := p
      have hh : ns.model.healthy = true :=
        scan_src lat now (fun _ ns₀ => ns₀.model.healthy = true) r.schedules 0 none
          (by intro j₀ ns₀ hx; cases hx) (fun k s _ hh₀ => hh₀) j ns hp
      refine ⟨ns.model, ?_, hh⟩
      rw [Next_latency_branch lat now r hcold j ns hp]
    · obtain ⟨ci, s, _, _, hsh, _, _, hnext, _⟩ :=
        Next_cold_spec lat now r hcold
      exact ⟨s.model, hnext, hsh⟩
  constructor
  · constructor
    · intro herr
      by_contra hnot
      push_neg at hnot
      obtain ⟨t, ht, hth⟩ := hnot
      have hth' : t.model.healthy = true := by
        revert hth
        cases t.model.healthy <;> simp
      obtain ⟨m, hm, _⟩ := hok ⟨t, ht, hth'⟩
      rw [hm] at herr
      cases herr
    · intro hall
      have hcold : coldIndices lat r = [] := by
        rw [coldIndices, List.filter_eq_nil_iff]
        intro i hi
        rw [List.mem_range] at hi
        obtain ⟨s, hs⟩ := get?_isSome_of_lt r.schedules i hi
        rw [getD_of_get? _ _ _ _ hs]
        have := hall s (List.get?_mem hs)
        simp [isCold, this]
      have hscan : scanSchedules lat now 0 none r.schedules = none :=
        scan_none lat now r.schedules 0 hall
      rw [Next_error_branch lat now r hcold hscan]
  · exact hok

theorem C4_witness :
    (∃ s ∈ rW2.schedules, s.model.healthy = true) ∧
    ∃ m, (LeastLatencyRouting.Next latW2 5 rW2).1 = Except.ok m ∧ m.healthy = true :=
  ⟨⟨{ model := mA, expireAt := 10 }, by decide⟩,
    (C4_no_healthy latW2 5 rW2).2 ⟨{ model := mA, expireAt := 10 }, by decide⟩⟩

theorem Next_single (lat : LatencyGetter) (now : Nat) (r : LeastLatencyRouting)
    (s : ModelSchedule) (hs : r.schedules = [s]) (hh : s.model.healthy = true)
    (hw : (lat s.model).WarmedUp = true) :
    LeastLatencyRouting.Next lat now r =
      (Except.ok s.model, { r with schedules := [s.Update now] }) := by
  have hcold : coldIndices lat r = [] := by
    rw [coldIndices, hs]
    simp [isCold, hh, hw, List.range_succ]
  have hscan : scanSchedules lat now 0 none r.schedules = some (0, s) := by
    rw [hs, scanSchedules_cons, scanStep_none_healthy lat now (0, s) hh, scanSchedules_nil]
  rw [Next_latency_branch lat now r hcold 0 s hscan, hs]
  rfl

def mOnly : Model := { id := "m", healthy := true, latencyUpdateInterval := 10 }

def rOnly : LeastLatencyRouting :=
  { warmupIdx := 0, schedules := [{ model := mOnly, expireAt := 5 }] }

/-- C1 counterexample: `Iterator()` keeps no per-request bookkeeping, so a
later `Next()` call within the same request can yield an already-yielded
model: with one healthy warmed-up model, the first and the second call of
the same request both return that model. -/
theorem C1_counterexample :
    (LeastLatencyRouting.Next latW2 3 rOnly.Iterator).1 = Except.ok mOnly ∧
    (LeastLatencyRouting.Next latW2 3
      (LeastLatencyRouting.Next latW2 3 rOnly.Iterator).2).1 = Except.ok mOnly := by
  decide

/-- C1 amended: `Iterator()` returns the strategy object itself and `Next`
does not exclude models already yielded for the request; in any state with
a single healthy warmed-up model, two successive `Next` calls of the same
request both yield that model. -/
theorem C1_amended_no_dedup (lat : LatencyGetter) (now : Nat) (r : LeastLatencyRouting)
    (s : ModelSchedule) (hs : r.schedules = [s]) (hh : s.model.healthy = true)
    (hw : (lat s.model).WarmedUp = true) :
    r.Iterator = r ∧
    (LeastLatencyRouting.Next lat now r.Iterator).1 = Except.ok s.model ∧
    (LeastLatencyRouting.Next lat now
      (LeastLatencyRouting.Next lat now r.Iterator).2).1 = Except.ok s.model := by
  have h1 := Next_single lat now r s hs hh hw
  have h2 := Next_single lat now { r with schedules := [s.Update now] }
    (s.Update now) rfl hh hw
  refine ⟨rfl, ?_, ?_⟩
  · show (LeastLatencyRouting.Next lat now r).1 = Except.ok s.model
    rw [h1]
  · show (LeastLatencyRouting.Next lat now
      (LeastLatencyRouting.Next lat now r).2).1 = Except.ok s.model
    rw [h1, h2]
    rfl

theorem C1_witness :
    rOnly.schedules = [{ model := mOnly, expireAt := 5 }] ∧
    (LeastLatencyRouting.Next latW2 7 rOnly.Iterator).1 = Except.ok mOnly ∧
    (LeastLatencyRouting.Next latW2 7
      (LeastLatencyRouting.Next latW2 7 rOnly.Iterator).2).1 = Except.ok mOnly :=
  ⟨rfl,
    (C1_amended_no_dedup latW2 7 rOnly { model := mOnly, expireAt := 5 }
      rfl (by decide) (by decide)).2⟩

def m0 : Model := { id := "m0", healthy := true, latencyUpdateInterval := 100 }

def m1 : Model := { id := "m1", healthy := true, latencyUpdateInterval := 100 }

def m2 : Model := { id := "m2", healthy := true, latencyUpdateInterval := 100 }

def lat0 : LatencyGetter := fun _ => coldTracker

def r0 : LeastLatencyRouting := NewLeastLatencyRouting 0 [m0, m1, m2]

def st1 : LatencyGetter × LeastLatencyRouting := successfulRequest 1 10 (lat0, r0)

def st2 : LatencyGetter × LeastLatencyRouting := successfulRequest 2 30 st1

def st3 : LatencyGetter × LeastLatencyRouting := successfulRequest 3 20 st2

/-- C5 counterexample: on a fresh router over `[m0, m1, m2]` (warm-up
threshold 1) with the first request's latency observed before the second
request, the second request is routed to `m2`, not to `m1` as the
configured order would demand: the cold list shrank to `[m1, m2]` while the
warm-up cursor advanced to 1. -/
theorem C5_counterexample :
    (LeastLatencyRouting.Next st1.1 2 st1.2).1 = Except.ok m2 ∧ m2 ≠ m1 := by
  decide

/-- C5 amended: with warm-up threshold 1, the first three requests visit
each of the three models exactly once, but in the order first, third,
second model (not configured order); the fourth request is then selected by
latency-based (non-warm-up) selection, all models being warmed up. -/
theorem C5_amended_run :
    (LeastLatencyRouting.Next lat0 1 r0).1 = Except.ok m0 ∧
    (LeastLatencyRouting.Next st1.1 2 st1.2).1 = Except.ok m2 ∧
    (LeastLatencyRouting.Next st2.1 3 st2.2).1 = Except.ok m1 ∧
    coldIndices st3.1 st3.2 = [] ∧
    (LeastLatencyRouting.Next st3.1 4 st3.2).1 = Except.ok m0 ∧
    (st3.1 m0).sampleCount = 1 ∧ (st3.1 m1).sampleCount = 1 ∧ (st3.1 m2).sampleCount = 1 ∧
    (st3.1 m0).WarmedUp = true ∧ (st3.1 m1).WarmedUp = true ∧ (st3.1 m2).WarmedUp = true := by
  decide

/-! Cohere chat path: claims C7-C10. -/

theorem doChatRequest_ok (cfg : Config) (now : Nat) (body : String)
    (parse : String → Option ChatCompletion) (c : ChatCompletion)
    (hp : parse body = some c) :
    doChatRequest cfg now (HTTPOutcome.response 200 body) parse =
      Except.ok
        { ID := c.ResponseID
          Created := now
          Provider := providerName
          ModelName := cfg.Model
          Cached := false
          ModelResponse :=
            { SystemID := [("generationId", c.GenerationID), ("responseId", c.ResponseID)]
              Message := { Role := "model", Content := c.Text, Name := "" }
              TokenUsage :=
                { PromptTokens := c.TokenCount.PromptTokens
                  ResponseTokens := c.TokenCount.ResponseTokens
                  TotalTokens := c.TokenCount.TotalTokens } } } := by
  unfold doChatRequest
  dsimp only
  rw [if_neg (by simp), hp]

/-- C7: for every received response with a non-2xx status code,
`doChatRequest` returns the mapped error for that response, and the generic
provider-unavailable error is never returned for any received response
(the branch that would return it is unreachable). -/
theorem C7_non2xx_mapped (cfg : Config) (now : Nat) (statusCode : Nat) (body : String)
    (parse : String → Option ChatCompletion)
    (h : statusCode < 200 ∨ 300 ≤ statusCode) :
    doChatRequest cfg now (HTTPOutcome.response statusCode body) parse =
      Except.error (ChatError.mapped statusCode body) ∧
    (∀ st b, doChatRequest cfg now (HTTPOutcome.response st b) parse ≠
      Except.error ChatError.providerUnavailable) := by
  constructor
  · have hne : statusCode ≠ 200 := by omega
    unfold doChatRequest
    dsimp only
    rw [if_pos hne, if_pos hne]
  · intro st b
    unfold doChatRequest
    dsimp only
    by_cases hne : st ≠ 200
    · rw [if_pos hne, if_pos hne]
      simp
    · rw [if_neg hne]
      cases hp : parse b <;> simp

def cfgFix : Config :=
  { Model := "command-r"
    APIKey := "k"
    DefaultParams :=
      { Temperature := 1/2
        Preamble := "be brief"
        PromptTruncation := "AUTO"
        Connectors := ["web"]
        SearchQueriesOnly := false } }

def tmplFix : CohereChatRequest := NewChatRequestFromConfig cfgFix

def reqFix : SchemaChatRequest :=
  { Message := { Role := "user", Content := "hi", Name := "" }
    MessageHistory := [] }

def completionFix : ChatCompletion :=
  { ResponseID := "rid"
    GenerationID := "gid"
    Text := "hello"
    TokenCount := { PromptTokens := 1, ResponseTokens := 2, TotalTokens := 3 } }

def emptyCompletionFix : ChatCompletion :=
  { ResponseID := "rid"
    GenerationID := "gid"
    Text := ""
    TokenCount := { PromptTokens := 1, ResponseTokens := 0, TotalTokens := 1 } }

def parseFix : String → Option ChatCompletion := fun b =>
  if b = "empty" then some emptyCompletionFix
  else if b = "good" then some completionFix
  else none

theorem C7_witness :
    ((503 : Nat) < 200 ∨ (300 : Nat) ≤ 503) ∧
    doChatRequest cfgFix 9 (HTTPOutcome.response 503 "oops") parseFix =
      Except.error (ChatError.mapped 503 "oops") :=
  ⟨by decide, (C7_non2xx_mapped cfgFix 9 503 "oops" parseFix (by decide)).1⟩

/-- C8: when the provider response parses but its message content is empty,
`Chat` returns no response and the `ErrEmptyResponse` sentinel, that
sentinel classifies as a transient provider error, and the dispatch loop
observes no latency for the call. -/
theorem C8_empty_response (cfg : Config) (template : CohereChatRequest) (now : Nat)
    (body : String) (parse : String → Option ChatCompletion) (request : SchemaChatRequest)
    (c : ChatCompletion) (lat : LatencyGetter) (m : Model) (elapsed : Rat)
    (hp : parse body = some c) (hempty : c.Text = "") :
    Chat cfg template now (HTTPOutcome.response 200 body) parse request =
      Except.error ErrEmptyResponse ∧
    classify ErrEmptyResponse = ErrorClass.transientUnavailable ∧
    (∀ q, (dispatchObserve lat m elapsed
        (Chat cfg template now (HTTPOutcome.response 200 body) parse request) q).sampleCount =
      (lat q).sampleCount) := by
  have hchat : Chat cfg template now (HTTPOutcome.response 200 body) parse request =
      Except.error ErrEmptyResponse := by
    unfold Chat
    rw [doChatRequest_ok cfg now body parse c hp, hempty]
    rfl
  refine ⟨hchat, rfl, ?_⟩
  intro q
  rw [hchat]
  rfl

theorem C8_witness :
    parseFix "empty" = some emptyCompletionFix ∧
    emptyCompletionFix.Text = "" ∧
    Chat cfgFix tmplFix 9 (HTTPOutcome.response 200 "empty") parseFix reqFix =
      Except.error ErrEmptyResponse :=
  ⟨rfl, rfl,
    (C8_empty_response cfgFix tmplFix 9 "empty" parseFix reqFix emptyCompletionFix
      latW2 mA 1 rfl rfl).1⟩

/-- C9: every successful Cohere chat call yields a normalized response with
message role "model" and empty name, the configured model id, the stable
Cohere provider tag, `cached = false`, and `created` filled by the gateway
clock. -/
theorem C9_normalized_response (cfg : Config) (template : CohereChatRequest) (now : Nat)
    (body : String) (parse : String → Option ChatCompletion) (request : SchemaChatRequest)
    (c : ChatCompletion) (hp : parse body = some c) (hlen : c.Text.length ≠ 0) :
    ∃ resp,
      Chat cfg template now (HTTPOutcome.response 200 body) parse request =
        Except.ok resp ∧
      resp.ModelResponse.Message.Role = "model" ∧
      resp.ModelResponse.Message.Name = "" ∧
      resp.ModelResponse.Message.Content = c.Text ∧
      resp.ModelName = cfg.Model ∧
      resp.Provider = providerName ∧
      resp.Cached = false ∧
      resp.Created = now := by
  have hchat : Chat cfg template now (HTTPOutcome.response 200 body) parse request =
      Except.ok
        { ID := c.ResponseID
          Created := now
          Provider := providerName
          ModelName := cfg.Model
          Cached := false
          ModelResponse :=
            { SystemID := [("generationId", c.GenerationID), ("responseId", c.ResponseID)]
              Message := { Role := "model", Content := c.Text, Name := "" }
              TokenUsage :=
                { PromptTokens := c.TokenCount.PromptTokens
                  ResponseTokens := c.TokenCount.ResponseTokens
                  TotalTokens := c.TokenCount.TotalTokens } } } := by
    unfold Chat
    rw [doChatRequest_ok cfg now body parse c hp]
    dsimp only
    rw [if_neg hlen]
  exact ⟨_, hchat, rfl, rfl, rfl, rfl, rfl, rfl, rfl⟩

theorem C9_witness :
    parseFix "good" = some completionFix ∧
    completionFix.Text.length ≠ 0 ∧
    ∃ resp,
      Chat cfgFix tmplFix 9 (HTTPOutcome.response 200 "good") parseFix reqFix =
        Except.ok resp ∧
      resp.ModelResponse.Message.Role = "model" ∧
      resp.ModelResponse.Message.Name = "" ∧
      resp.ModelResponse.Message.Content = completionFix.Text ∧
      resp.ModelName = cfgFix.Model ∧
      resp.Provider = providerName ∧
      resp.Cached = false ∧
      resp.Created = 9 :=
  ⟨rfl, by decide,
    C9_normalized_response cfgFix tmplFix 9 "good" parseFix reqFix completionFix
      rfl (by decide)⟩

/-- C10: the Cohere request built by `createRequestSchema` from the
configured template carries the inbound message content, a chat history of
the same length and order with role and content copied verbatim (the
optional name is discarded), and every configuration-derived template field
unchanged. -/
theorem C10_request_mapping (cfg : Config) (request : SchemaChatRequest) :
    (createRequestSchema (NewChatRequestFromConfig cfg) request).Message =
      request.Message.Content ∧
    (createRequestSchema (NewChatRequestFromConfig cfg) request).ChatHistory =
      request.MessageHistory.map
        (fun m => { Role := m.Role, Content := m.Content }) ∧
    (createRequestSchema (NewChatRequestFromConfig cfg) request).Model =
      (NewChatRequestFromConfig cfg).Model ∧
    (createRequestSchema (NewChatRequestFromConfig cfg) request).Temperature =
      (NewChatRequestFromConfig cfg).Temperature ∧
    (createRequestSchema (NewChatRequestFromConfig cfg) request).Preamble =
      (NewChatRequestFromConfig cfg).Preamble ∧
    (createRequestSchema (NewChatRequestFromConfig cfg) request).PromptTruncation =
      (NewChatRequestFromConfig cfg).PromptTruncation ∧
    (createRequestSchema (NewChatRequestFromConfig cfg) request).Connectors =
      (NewChatRequestFromConfig cfg).Connectors ∧
    (createRequestSchema (NewChatRequestFromConfig cfg) request).SearchQueriesOnly =
      (NewChatRequestFromConfig cfg).SearchQueriesOnly ∧
    (createRequestSchema (NewChatRequestFromConfig cfg) request).Stream =
      (NewChatRequestFromConfig cfg).Stream := by
  unfold createRequestSchema
  by_cases hlen : 0 < request.MessageHistory.length
  · rw [if_pos hlen]
    exact ⟨rfl, rfl, rfl, rfl, rfl, rfl, rfl, rfl, rfl⟩
  · have h0 : request.MessageHistory = [] := by
      cases hh : request.MessageHistory with
      | nil => rfl
      | cons a l =>
        rw [hh] at hlen
        exact absurd (by simp) hlen
    rw [if_neg hlen, h0]
    exact ⟨rfl, rfl, rfl, rfl, rfl, rfl, rfl, rfl, rfl⟩
